import Mathlib

/- Verification of the kd-tree attributes encoder of the draco point-cloud
compression library.  The dispatch and header layer is embedded from
compression/attributes/kd_tree_attributes_encoder.cc; the recursive integer
kd-tree codec pair (IntegerPointsKdTreeEncoder / decoder) and the float front
end (FloatPointsKdTreeEncoder) are not part of the given sources, so they are
modelled from the specification. -/

namespace Draco

/-- A 3-dimensional integer point (the fixed dimensionality of this encoder,
Point3ui in the source). -/
structure Pt where
  x : Nat
  y : Nat
  z : Nat
deriving DecidableEq

/-- One of the three coordinate axes of a point. -/
inductive Axis
  | ax0
  | ax1
  | ax2
deriving DecidableEq

/-- Coordinate of a point along an axis. -/
def Pt.coord (p : Pt) : Axis → Nat
  | Axis.ax0 => p.x
  | Axis.ax1 => p.y
  | Axis.ax2 => p.z

/-- Replace the coordinate of a point along an axis. -/
def Pt.setCoord (p : Pt) : Axis → Nat → Pt
  | Axis.ax0, v => ⟨v, p.y, p.z⟩
  | Axis.ax1, v => ⟨p.x, v, p.z⟩
  | Axis.ax2, v => ⟨p.x, p.y, v⟩

/-- Axis-aligned bounding box with inclusive per-axis bounds. -/
structure Box where
  lo : Pt
  hi : Pt
deriving DecidableEq

/-- Width of a box along one axis (0 when the axis is pinned to one value). -/
def Box.width (r : Box) (a : Axis) : Nat := r.hi.coord a - r.lo.coord a

/-- Sum of the three axis widths; the recursion measure of the codec. -/
def Box.totalWidth (r : Box) : Nat :=
  r.width Axis.ax0 + r.width Axis.ax1 + r.width Axis.ax2

/-- Membership of a point in a box. -/
def inBox (r : Box) (p : Pt) : Prop :=
  ∀ a, r.lo.coord a ≤ p.coord a ∧ p.coord a ≤ r.hi.coord a

/-- Modelled from the spec: the deterministic split-axis policy of the integer
spatial codec — the axis with the greatest coordinate range, ties broken
towards the lowest axis index (spec section 4.3). -/
def splitAxis (r : Box) : Axis :=
  if r.width Axis.ax0 < r.width Axis.ax1 then
    if r.width Axis.ax1 < r.width Axis.ax2 then Axis.ax2 else Axis.ax1
  else
    if r.width Axis.ax0 < r.width Axis.ax2 then Axis.ax2 else Axis.ax0

/-- Modelled from the spec: the split value partitioning the current subset by
the split axis (the midpoint of the current bounds, rounded up so that both
halves are strictly narrower whenever the axis has positive width). -/
def Box.mid (r : Box) : Nat :=
  (r.lo.coord (splitAxis r) + r.hi.coord (splitAxis r) + 1) / 2

/-- Bounding box of the left half (coordinates below the split value). -/
def leftBox (r : Box) : Box :=
  ⟨r.lo, r.hi.setCoord (splitAxis r) (r.mid - 1)⟩

/-- Bounding box of the right half (coordinates at or above the split value). -/
def rightBox (r : Box) : Box :=
  ⟨r.lo.setCoord (splitAxis r) r.mid, r.hi⟩

/-- Direct terminal emission of a list of points onto the symbol stream. -/
def writePts : List Pt → List Nat
  | [] => []
  | p :: ps => p.x :: p.y :: p.z :: writePts ps

/-- Direct terminal reading of a known number of points from the stream. -/
def readPts : Nat → List Nat → Option (List Pt × List Nat)
  | 0, s => some ([], s)
  | n + 1, a :: b :: c :: s =>
    match readPts n s with
    | some (ps, s1) => some (Pt.mk a b c :: ps, s1)
    | none => none
  | _ + 1, _ => none

/-- Modelled from the spec: the recursive integer spatial encoder (spec
section 4.3).  The fuel argument bounds the recursion by the total bounding
width, which strictly decreases at every split.  A subset of size at most one,
or a fully pinned bounding box, terminates by writing the point coordinates
directly; otherwise the count of the below-split half is emitted and both
halves are encoded recursively. -/
def encodeAux : Nat → List Pt → Box → List Nat
  | 0, ps, _ => writePts ps
  | fuel + 1, ps, r =>
    if ps.length ≤ 1 ∨ r.totalWidth = 0 then writePts ps
    else
      (ps.filter (fun p => decide (p.coord (splitAxis r) < r.mid))).length ::
        (encodeAux fuel (ps.filter (fun p => decide (p.coord (splitAxis r) < r.mid)))
            (leftBox r) ++
          encodeAux fuel (ps.filter (fun p => !decide (p.coord (splitAxis r) < r.mid)))
            (rightBox r))

/-- Modelled from the spec: the mirror recursive integer spatial decoder (spec
section 4.3), recomputing the identical split decisions from the declared
count and the same initial bounds, and failing on a stream too short for the
expected structure. -/
def decodeAux : Nat → Nat → Box → List Nat → Option (List Pt × List Nat)
  | 0, n, _, s => readPts n s
  | fuel + 1, n, r, s =>
    if n ≤ 1 ∨ r.totalWidth = 0 then readPts n s
    else
      match s with
      | [] => none
      | c :: s1 =>
        match decodeAux fuel c (leftBox r) s1 with
        | none => none
        | some (L, s2) =>
          match decodeAux fuel (n - c) (rightBox r) s2 with
          | none => none
          | some (R, s3) => some (L ++ R, s3)

/-- Modelled from the spec: the final reordered state of the codec working
buffer — the recursive algorithm destructively partitions its input container
in place (spec sections 3 and 5). -/
def reorderAux : Nat → List Pt → Box → List Pt
  | 0, ps, _ => ps
  | fuel + 1, ps, r =>
    if ps.length ≤ 1 ∨ r.totalWidth = 0 then ps
    else
      reorderAux fuel (ps.filter (fun p => decide (p.coord (splitAxis r) < r.mid)))
          (leftBox r) ++
        reorderAux fuel (ps.filter (fun p => !decide (p.coord (splitAxis r) < r.mid)))
          (rightBox r)

/-- The initial bounding box of coordinates of a given bit width. -/
def fullBox (b : Nat) : Box := ⟨⟨0, 0, 0⟩, ⟨2 ^ b - 1, 2 ^ b - 1, 2 ^ b - 1⟩⟩

/-- Little-endian byte image of a value cast to a 4-byte unsigned integer,
as produced by EncoderBuffer Encode of a uint32. -/
def u32le (n : Nat) : List Nat :=
  [n % 256, n / 256 % 256, n / 65536 % 256, n / 16777216 % 256]

/-- Value of four little-endian bytes read back as a 4-byte unsigned count. -/
def u32leVal (b0 b1 b2 b3 : Nat) : Nat :=
  b0 + 256 * b1 + 65536 * b2 + 16777216 * b3

/-- Modelled from the spec: the method identifier of the quantized-float
method, from KdTreeAttributesEncodingMethod in kd_tree_attributes_shared.h
(not among the given sources); the spec wire table gives 0. -/
def kKdTreeQuantizationEncoding : Nat := 0

/-- Modelled from the spec: the method identifier of the direct-integer
method, from KdTreeAttributesEncodingMethod in kd_tree_attributes_shared.h
(not among the given sources); the spec wire table gives 1. -/
def kKdTreeIntegerEncoding : Nat := 1

/-- Modelled from the spec: IntegerPointsKdTreeEncoder EncodePoints over
32-bit coordinates.  The per-level count-coding strategies are left open by
the spec (all levels honor the same encode/decode contract), so the modelled
strategy is shared by every level.  The result carries the emitted payload
together with the final, destructively reordered state of the working
container that the caller handed in. -/
def integerPointsKdTreeEncoderEncodePoints (compression_level : Nat) (ps : List Pt) :
    List Nat × List Pt :=
  (encodeAux (fullBox 32).totalWidth ps (fullBox 32),
    reorderAux (fullBox 32).totalWidth ps (fullBox 32))

/-- Modelled from the spec: FloatPointsKdTreeEncoder EncodePointCloud — the
float front end treats the already-quantized values as unsigned integers of
the configured quantization bit width and defers to the integer spatial
encoder at the same compression level (spec sections 4.2 and 4.3); an
out-of-range compression level is a configuration error. -/
def floatPointsKdTreeEncoderEncodePointCloud (quantization_bits compression_level : Nat)
    (ps : List Pt) : Option (List Nat) :=
  if compression_level ≤ 10 then
    some (encodeAux (fullBox quantization_bits).totalWidth ps (fullBox quantization_bits))
  else none

/-- Modelled from the spec: the full integer-path wire image — method
identifier, compression level, 4-byte point count, then the codec payload
(spec section 6). -/
def integerEncodePointCloud (compression_level bit_width : Nat) (ps : List Pt) :
    Option (List Nat) :=
  if compression_level ≤ 10 then
    some (kKdTreeIntegerEncoding :: compression_level ::
      (u32le ps.length ++ encodeAux (fullBox bit_width).totalWidth ps (fullBox bit_width)))
  else none

/-- Modelled from the spec: the symmetric integer-path decoder — read the
header, select the matching decoder, reconstruct the declared number of
points with the same initial bounds (spec sections 2, 4.3 and 6). -/
def integerDecodePointCloud (bit_width : Nat) (s : List Nat) : Option (List Pt) :=
  match s with
  | m :: compression_level :: b0 :: b1 :: b2 :: b3 :: rest =>
    if m = kKdTreeIntegerEncoding ∧ compression_level ≤ 10 then
      match decodeAux (fullBox bit_width).totalWidth (u32leVal b0 b1 b2 b3)
          (fullBox bit_width) rest with
      | some (ps, []) => some ps
      | _ => none
    else none
  | _ => none

/-- Attribute data types of the draco attribute store. -/
inductive DataType
  | DT_INVALID
  | DT_INT8
  | DT_UINT8
  | DT_INT16
  | DT_UINT16
  | DT_INT32
  | DT_UINT32
  | DT_INT64
  | DT_UINT64
  | DT_FLOAT32
  | DT_FLOAT64
  | DT_BOOL
deriving DecidableEq

/-- A source point attribute: its data type, its component count, and the
converted 3-component value at each mapped point index (the view the
PointAttributeVectorIterator of the source file provides). -/
structure PointAttribute where
  data_type : DataType
  components_count : Nat
  value : Nat → Pt

/-- Encoder options: the externally supplied encoding-speed knob and the
per-attribute quantization-bit configuration (GetAttributeInt returns the
default -1 when the entry is absent). -/
structure EncoderOptions where
  speed : Int
  quantization_bits : Option Int

/-- The point cloud being encoded, reduced to what EncodeAttributes reads. -/
structure PointCloud where
  num_points : Nat

/-- State of one KdTreeAttributesEncoder instance: the attributes attached to
it, the encoder options, and the point cloud. -/
structure EncState where
  attributes : List PointAttribute
  options : EncoderOptions
  cloud : PointCloud

/-- GetAttributeInt of the quantization_bits entry with default -1. -/
def getQuantBits (o : EncoderOptions) : Int := o.quantization_bits.getD (-1)

/-- The derived compression level: 10 - GetSpeed cast to uint8_t
(kd_tree_attributes_encoder.cc line 82). -/
def compressionLevelOf (o : EncoderOptions) : Nat := ((10 - o.speed) % 256).toNat

/-- The point sequence the attribute iterator yields for the first n point
indices. -/
def attributePoints (att : PointAttribute) (n : Nat) : List Pt :=
  (List.range n).map att.value

/-- Embedding of KdTreeAttributesEncoder EncodeAttributes
(kd_tree_attributes_encoder.cc lines 73-205).  The result is the success
flag, the bytes appended to the output buffer, and the resulting encoder
state (the source mutates nothing reachable from the state; the integer path
copies the attribute values into the private working buffer int_points
before handing them to the destructive recursive encoder). -/
def EncodeAttributes (s : EncState) : Bool × List Nat × EncState :=
  match s.attributes with
  | [att] =>
    if att.components_count ≠ 3 then (false, [], s)
    else
      let compression_level := compressionLevelOf s.options
      if att.data_type = DataType.DT_FLOAT32 then
        let quantization_bits := getQuantBits s.options
        if quantization_bits ≤ 0 then (false, [], s)
        else
          let header := kKdTreeQuantizationEncoding :: compression_level ::
            u32le s.cloud.num_points
          match floatPointsKdTreeEncoderEncodePointCloud quantization_bits.toNat
              compression_level (attributePoints att s.cloud.num_points) with
          | none => (false, header, s)
          | some payload => (true, header ++ payload, s)
      else if att.data_type = DataType.DT_UINT32 then
        let header := kKdTreeIntegerEncoding :: compression_level ::
          u32le s.cloud.num_points
        let int_points := attributePoints att s.cloud.num_points
        if compression_level ≤ 10 then
          (true,
            header ++ (integerPointsKdTreeEncoderEncodePoints compression_level int_points).1,
            s)
        else (false, header, s)
      else (false, [], s)
  | _ => (false, [], s)

/-- A well-formed unsigned-integer position attribute used as a witness. -/
def wAttU32 : PointAttribute := ⟨DataType.DT_UINT32, 3, fun _ => ⟨0, 0, 0⟩⟩

/-- A well-formed float position attribute used as a witness. -/
def wAttF32 : PointAttribute := ⟨DataType.DT_FLOAT32, 3, fun _ => ⟨0, 0, 0⟩⟩

/-- Options with speed 0 and configured quantization bits. -/
def wOptions : EncoderOptions := ⟨0, some 8⟩

/-- A witness state holding one well-formed integer attribute. -/
def wStateU32 : EncState := ⟨[wAttU32], wOptions, ⟨0⟩⟩

/-- A witness state holding one well-formed float attribute. -/
def wStateF32 : EncState := ⟨[wAttF32], wOptions, ⟨0⟩⟩

/-- A witness state holding no attribute at all. -/
def wStateEmpty : EncState := ⟨[], wOptions, ⟨0⟩⟩

/-- An attribute of an unsupported 64-bit float data type used as a witness. -/
def wAttF64 : PointAttribute := ⟨DataType.DT_FLOAT64, 3, fun _ => ⟨0, 0, 0⟩⟩

/-- A witness state holding one attribute of an unsupported data type. -/
def wStateBadType : EncState := ⟨[wAttF64], wOptions, ⟨0⟩⟩

/-- A witness state holding a float attribute with no configured
quantization bits. -/
def wStateNoQuant : EncState := ⟨[wAttF32], ⟨0, none⟩, ⟨0⟩⟩

/-- A witness state whose speed 11 derives the out-of-range compression
level 255. -/
def wStateFastSpeed : EncState := ⟨[wAttU32], ⟨11, none⟩, ⟨0⟩⟩

theorem Pt.mk_eta (p : Pt) : Pt.mk p.x p.y p.z = p := rfl

theorem Pt.coord_setCoord (p : Pt) (a b : Axis) (v : Nat) :
    (p.setCoord a v).coord b = if b = a then v else p.coord b := by
  cases a <;> cases b <;> simp [Pt.setCoord, Pt.coord]

theorem width_splitAxis_pos (r : Box) (h : r.totalWidth ≠ 0) :
    0 < r.width (splitAxis r) := by
  have hsum : r.width Axis.ax0 + r.width Axis.ax1 + r.width Axis.ax2 ≠ 0 := h
  unfold splitAxis
  split_ifs <;> omega

theorem lo_lt_mid (r : Box) (hw : 0 < r.width (splitAxis r)) :
    r.lo.coord (splitAxis r) < r.mid := by
  have hw2 : 0 < r.hi.coord (splitAxis r) - r.lo.coord (splitAxis r) := hw
  unfold Box.mid
  omega

theorem mid_le_hi (r : Box) (hw : 0 < r.width (splitAxis r)) :
    r.mid ≤ r.hi.coord (splitAxis r) := by
  have hw2 : 0 < r.hi.coord (splitAxis r) - r.lo.coord (splitAxis r) := hw
  unfold Box.mid
  omega

theorem totalWidth_set_hi_lt (lo hi : Pt) (a : Axis) (v : Nat)
    (hlo : lo.coord a ≤ v) (hv : v < hi.coord a) :
    (Box.mk lo (hi.setCoord a v)).totalWidth < (Box.mk lo hi).totalWidth := by
  cases lo
  cases hi
  cases a <;> simp [Box.totalWidth, Box.width, Pt.setCoord, Pt.coord] at * <;> omega

theorem totalWidth_set_lo_lt (lo hi : Pt) (a : Axis) (v : Nat)
    (hlo : lo.coord a < v) (hv : v ≤ hi.coord a) :
    (Box.mk (lo.setCoord a v) hi).totalWidth < (Box.mk lo hi).totalWidth := by
  cases lo
  cases hi
  cases a <;> simp [Box.totalWidth, Box.width, Pt.setCoord, Pt.coord] at * <;> omega

theorem totalWidth_leftBox_lt (r : Box) (h : r.totalWidth ≠ 0) :
    (leftBox r).totalWidth < r.totalWidth := by
  have hw := width_splitAxis_pos r h
  have h1 := lo_lt_mid r hw
  have h2 := mid_le_hi r hw
  have hw2 : 0 < r.hi.coord (splitAxis r) - r.lo.coord (splitAxis r) := hw
  exact totalWidth_set_hi_lt r.lo r.hi (splitAxis r) (r.mid - 1) (by omega) (by omega)

theorem totalWidth_rightBox_lt (r : Box) (h : r.totalWidth ≠ 0) :
    (rightBox r).totalWidth < r.totalWidth := by
  have hw := width_splitAxis_pos r h
  have h1 := lo_lt_mid r hw
  have h2 := mid_le_hi r hw
  exact totalWidth_set_lo_lt r.lo r.hi (splitAxis r) r.mid h1 h2

theorem inBox_leftBox (r : Box) (p : Pt) (hp : inBox r p)
    (hs : p.coord (splitAxis r) < r.mid) : inBox (leftBox r) p := by
  intro a
  have h1 := hp a
  refine ⟨h1.1, ?_⟩
  show p.coord a ≤ (r.hi.setCoord (splitAxis r) (r.mid - 1)).coord a
  rw [Pt.coord_setCoord]
  by_cases h : a = splitAxis r
  · rw [if_pos h, h]
    omega
  · rw [if_neg h]
    exact h1.2

theorem inBox_rightBox (r : Box) (p : Pt) (hp : inBox r p)
    (hs : ¬ p.coord (splitAxis r) < r.mid) : inBox (rightBox r) p := by
  intro a
  have h1 := hp a
  refine ⟨?_, h1.2⟩
  show (r.lo.setCoord (splitAxis r) r.mid).coord a ≤ p.coord a
  rw [Pt.coord_setCoord]
  by_cases h : a = splitAxis r
  · rw [if_pos h, h]
    omega
  · rw [if_neg h]
    exact h1.1

theorem readPts_writePts (ps : List Pt) (rest : List Nat) :
    readPts ps.length (writePts ps ++ rest) = some (ps, rest) := by
  induction ps with
  | nil => rfl
  | cons p ps ih => simp [writePts, readPts, ih, Pt.mk_eta]

theorem decodeAux_encodeAux (fuel : Nat) :
    ∀ (ps : List Pt) (r : Box) (rest : List Nat),
      r.totalWidth ≤ fuel → (∀ p ∈ ps, inBox r p) →
      ∃ qs, decodeAux fuel ps.length r (encodeAux fuel ps r ++ rest) = some (qs, rest) ∧
        qs.Perm ps := by
  induction fuel with
  | zero =>
    intro ps r rest hf hin
    exact ⟨ps, by simpa [encodeAux, decodeAux] using readPts_writePts ps rest,
      List.Perm.refl ps⟩
  | succ fuel ih =>
    intro ps r rest hf hin
    by_cases hbase : ps.length ≤ 1 ∨ r.totalWidth = 0
    · refine ⟨ps, ?_, List.Perm.refl ps⟩
      simp only [encodeAux, decodeAux, if_pos hbase]
      exact readPts_writePts ps rest
    · have hTW : r.totalWidth ≠ 0 := fun hc => hbase (Or.inr hc)
      have hwL : (leftBox r).totalWidth ≤ fuel := by
        have := totalWidth_leftBox_lt r hTW
        omega
      have hwR : (rightBox r).totalWidth ≤ fuel := by
        have := totalWidth_rightBox_lt r hTW
        omega
      have hinL : ∀ p ∈ ps.filter (fun p => decide (p.coord (splitAxis r) < r.mid)),
          inBox (leftBox r) p := by
        intro p hp
        have hm := List.mem_filter.mp hp
        exact inBox_leftBox r p (hin p hm.1) (by simpa using hm.2)
      have hinR : ∀ p ∈ ps.filter (fun p => !decide (p.coord (splitAxis r) < r.mid)),
          inBox (rightBox r) p := by
        intro p hp
        have hm := List.mem_filter.mp hp
        exact inBox_rightBox r p (hin p hm.1) (by simpa using hm.2)
      have hperm := List.filter_append_perm
        (fun p => decide (p.coord (splitAxis r) < r.mid)) ps
      have hlen : (ps.filter (fun p => decide (p.coord (splitAxis r) < r.mid))).length +
          (ps.filter (fun p => !decide (p.coord (splitAxis r) < r.mid))).length =
          ps.length := by
        have := hperm.length_eq
        simpa [List.length_append] using this
      obtain ⟨qL, hdL, hpL⟩ :=
        ih (ps.filter (fun p => decide (p.coord (splitAxis r) < r.mid))) (leftBox r)
          (encodeAux fuel (ps.filter (fun p => !decide (p.coord (splitAxis r) < r.mid)))
            (rightBox r) ++ rest) hwL hinL
      obtain ⟨qR, hdR, hpR⟩ :=
        ih (ps.filter (fun p => !decide (p.coord (splitAxis r) < r.mid))) (rightBox r)
          rest hwR hinR
      refine ⟨qL ++ qR, ?_, (hpL.append hpR).trans hperm⟩
      simp only [encodeAux, decodeAux, if_neg hbase, List.cons_append, List.append_assoc]
      rw [hdL]
      rw [show ps.length -
          (ps.filter (fun p => decide (p.coord (splitAxis r) < r.mid))).length =
          (ps.filter (fun p => !decide (p.coord (splitAxis r) < r.mid))).length from by
        omega]
      simp [hdR]

/-- C1: for every multiset of integer points whose coordinates fit within the
declared bit width (and whose count fits the 4-byte count field of the wire
header), and for every compression level in [0, 10], decoding the output of
encoding that multiset yields the same multiset of points — exact round
trip, duplicates preserved. -/
theorem c1_round_trip (compression_level bit_width : Nat) (ps : List Pt)
    (hlevel : compression_level ≤ 10) (hn : ps.length < 4294967296)
    (hcoords : ∀ p ∈ ps,
      p.x < 2 ^ bit_width ∧ p.y < 2 ^ bit_width ∧ p.z < 2 ^ bit_width) :
    ∃ out qs, integerEncodePointCloud compression_level bit_width ps = some out ∧
      integerDecodePointCloud bit_width out = some qs ∧
      (qs : Multiset Pt) = (ps : Multiset Pt) := by
  have hin : ∀ p ∈ ps, inBox (fullBox bit_width) p := by
    intro p hp
    have hc := hcoords p hp
    have hb : 0 < 2 ^ bit_width := Nat.pos_pow_of_pos bit_width (by omega)
    intro a
    cases a <;> simp [fullBox, Pt.coord] <;> omega
  obtain ⟨qs, hdec, hperm⟩ := decodeAux_encodeAux (fullBox bit_width).totalWidth ps
    (fullBox bit_width) [] (le_refl _) hin
  have hdec2 : decodeAux (fullBox bit_width).totalWidth ps.length (fullBox bit_width)
      (encodeAux (fullBox bit_width).totalWidth ps (fullBox bit_width)) = some (qs, []) := by
    simpa using hdec
  have hval : u32leVal (ps.length % 256) (ps.length / 256 % 256)
      (ps.length / 65536 % 256) (ps.length / 16777216 % 256) = ps.length := by
    unfold u32leVal
    omega
  refine ⟨kKdTreeIntegerEncoding :: compression_level ::
      (u32le ps.length ++ encodeAux (fullBox bit_width).totalWidth ps (fullBox bit_width)),
    qs, ?_, ?_, Multiset.coe_eq_coe.mpr hperm⟩
  · rw [integerEncodePointCloud, if_pos hlevel]
  · simp [integerDecodePointCloud, u32le, hlevel, hval, hdec2]

/-- Witness for C1: compression level 5, bit width 1, and a point multiset
holding the point (0,0,0) twice. -/
theorem c1_round_trip_witness :
    ∃ out qs,
      integerEncodePointCloud 5 1 [⟨0, 0, 0⟩, ⟨1, 0, 0⟩, ⟨0, 0, 0⟩] = some out ∧
      integerDecodePointCloud 1 out = some qs ∧
      (qs : Multiset Pt) = (([⟨0, 0, 0⟩, ⟨1, 0, 0⟩, ⟨0, 0, 0⟩] : List Pt) : Multiset Pt) :=
  c1_round_trip 5 1 [⟨0, 0, 0⟩, ⟨1, 0, 0⟩, ⟨0, 0, 0⟩] (by decide) (by decide) (by decide)

/-- C2: on every successful encode, EncodeAttributes appends to the output
buffer, in order and before any payload bytes, the 1-byte method identifier
(the quantized-float method id on the float path, the direct-integer method
id on the integer path), the 1-byte compression level, and the 4-byte
unsigned count of the point cloud points. -/
theorem c2_header_layout (s : EncState) (att : PointAttribute) (out : List Nat)
    (s2 : EncState) (ha : s.attributes = [att])
    (henc : EncodeAttributes s = (true, out, s2)) :
    ∃ payload, out =
      (if att.data_type = DataType.DT_FLOAT32 then kKdTreeQuantizationEncoding
        else kKdTreeIntegerEncoding) :: compressionLevelOf s.options ::
        (u32le s.cloud.num_points ++ payload) := by
  simp only [EncodeAttributes, ha] at henc
  split at henc
  · simp at henc
  · split at henc
    · split at henc
      · simp at henc
      · split at henc
        · simp at henc
        · rename_i hft _ _ payload hmatch
          simp only [Prod.mk.injEq, true_and] at henc
          exact ⟨payload, by simp [← henc.1, hft]⟩
    · split at henc
      · split at henc
        · rename_i hft hut hl
          simp only [Prod.mk.injEq, true_and] at henc
          exact ⟨(integerPointsKdTreeEncoderEncodePoints (compressionLevelOf s.options)
            (attributePoints att s.cloud.num_points)).1, by simp [← henc.1, hft]⟩
        · simp at henc
      · simp at henc

/-- Witness for C2: a successful integer-path encode of an empty point
cloud. -/
theorem c2_header_layout_witness :
    ∃ payload, (EncodeAttributes wStateU32).2.1 =
      (if wAttU32.data_type = DataType.DT_FLOAT32 then kKdTreeQuantizationEncoding
        else kKdTreeIntegerEncoding) :: compressionLevelOf wStateU32.options ::
        (u32le wStateU32.cloud.num_points ++ payload) :=
  c2_header_layout wStateU32 wAttU32 (EncodeAttributes wStateU32).2.1
    (EncodeAttributes wStateU32).2.2 rfl rfl

/-- C3: under the externally supplied 0-10 speed knob, the compression level
used by EncodeAttributes equals 10 minus the encoding speed, and exactly this
value is the byte written into the compression_level field of the header and
the level handed to the selected codec, on both supported paths. -/
theorem c3_compression_level (s : EncState) (att : PointAttribute)
    (h0 : 0 ≤ s.options.speed) (h10 : s.options.speed ≤ 10)
    (ha : s.attributes = [att]) (hc : att.components_count = 3) :
    (compressionLevelOf s.options : Int) = 10 - s.options.speed ∧
    (att.data_type = DataType.DT_UINT32 →
      EncodeAttributes s = (true,
        kKdTreeIntegerEncoding :: compressionLevelOf s.options ::
          (u32le s.cloud.num_points ++
            (integerPointsKdTreeEncoderEncodePoints (compressionLevelOf s.options)
              (attributePoints att s.cloud.num_points)).1), s)) ∧
    (att.data_type = DataType.DT_FLOAT32 → 0 < getQuantBits s.options →
      EncodeAttributes s = (true,
        kKdTreeQuantizationEncoding :: compressionLevelOf s.options ::
          (u32le s.cloud.num_points ++
            (floatPointsKdTreeEncoderEncodePointCloud (getQuantBits s.options).toNat
              (compressionLevelOf s.options)
              (attributePoints att s.cloud.num_points)).getD []), s)) := by
  have hlvl : compressionLevelOf s.options ≤ 10 := by
    unfold compressionLevelOf
    omega
  refine ⟨?_, ?_, ?_⟩
  · unfold compressionLevelOf
    omega
  · intro hdt
    simp [EncodeAttributes, ha, hc, hdt, hlvl]
  · intro hdt hq
    simp [EncodeAttributes, ha, hc, hdt, Int.not_le.mpr hq,
      floatPointsKdTreeEncoderEncodePointCloud, hlvl]

/-- Witness for C3: the integer witness state with speed 0, whose compression
level is 10. -/
theorem c3_compression_level_witness :
    (compressionLevelOf wStateU32.options : Int) = 10 - wStateU32.options.speed ∧
    (wAttU32.data_type = DataType.DT_UINT32 →
      EncodeAttributes wStateU32 = (true,
        kKdTreeIntegerEncoding :: compressionLevelOf wStateU32.options ::
          (u32le wStateU32.cloud.num_points ++
            (integerPointsKdTreeEncoderEncodePoints (compressionLevelOf wStateU32.options)
              (attributePoints wAttU32 wStateU32.cloud.num_points)).1), wStateU32)) ∧
    (wAttU32.data_type = DataType.DT_FLOAT32 → 0 < getQuantBits wStateU32.options →
      EncodeAttributes wStateU32 = (true,
        kKdTreeQuantizationEncoding :: compressionLevelOf wStateU32.options ::
          (u32le wStateU32.cloud.num_points ++
            (floatPointsKdTreeEncoderEncodePointCloud
              (getQuantBits wStateU32.options).toNat
              (compressionLevelOf wStateU32.options)
              (attributePoints wAttU32 wStateU32.cloud.num_points)).getD []), wStateU32)) :=
  c3_compression_level wStateU32 wAttU32 (by decide) (by decide) rfl rfl

/-- C4: EncodeAttributes returns failure, appending nothing, whenever the
number of attributes attached to the encoder is not exactly one, or the
attribute component count differs from 3. -/
theorem c4_attribute_validation (s : EncState)
    (h : s.attributes.length ≠ 1 ∨
      ∃ att l, s.attributes = att :: l ∧ att.components_count ≠ 3) :
    EncodeAttributes s = (false, [], s) := by
  rcases hs : s.attributes with _ | ⟨att, _ | ⟨b, l⟩⟩
  · simp [EncodeAttributes, hs]
  · rcases h with h | ⟨att2, l2, he, hcc⟩
    · rw [hs] at h
      simp at h
    · rw [hs] at he
      injection he with h1 h2
      subst h1
      simp [EncodeAttributes, hs, hcc]
  · simp [EncodeAttributes, hs]

/-- Witness for C4: an encoder state with no attribute attached. -/
theorem c4_attribute_validation_witness :
    EncodeAttributes wStateEmpty = (false, [], wStateEmpty) :=
  c4_attribute_validation wStateEmpty (Or.inl (by decide))

/-- C5: on the 32-bit float path, EncodeAttributes returns failure whenever
the configured quantization bit count is absent (looked up as the default -1)
or non-positive; no fallback precision is substituted. -/
theorem c5_float_requires_quantization (s : EncState) (att : PointAttribute)
    (ha : s.attributes = [att]) (hdt : att.data_type = DataType.DT_FLOAT32)
    (hq : getQuantBits s.options ≤ 0) :
    EncodeAttributes s = (false, [], s) := by
  by_cases hc : att.components_count = 3
  · simp [EncodeAttributes, ha, hc, hdt, hq]
  · simp [EncodeAttributes, ha, hc]

/-- Witness for C5: a float attribute with no configured quantization
bits. -/
theorem c5_float_requires_quantization_witness :
    EncodeAttributes wStateNoQuant = (false, [], wStateNoQuant) :=
  c5_float_requires_quantization wStateNoQuant wAttF32 rfl rfl (by decide)

/-- C6: EncodeAttributes supports exactly the 32-bit float and the 32-bit
unsigned integer attribute data types: any attribute of another data type
makes it fail, while well-formed attributes of the two supported types
encode successfully. -/
theorem c6_supported_data_types (s : EncState) (att : PointAttribute)
    (l : List PointAttribute) (ha : s.attributes = att :: l)
    (hf : att.data_type ≠ DataType.DT_FLOAT32)
    (hu : att.data_type ≠ DataType.DT_UINT32) :
    (EncodeAttributes s).1 = false ∧
    (EncodeAttributes wStateF32).1 = true ∧
    (EncodeAttributes wStateU32).1 = true := by
  refine ⟨?_, ?_, ?_⟩
  · rcases l with _ | ⟨b, l2⟩
    · by_cases hc : att.components_count = 3
      · simp [EncodeAttributes, ha, hc, hf, hu]
      · simp [EncodeAttributes, ha, hc]
    · simp [EncodeAttributes, ha]
  · simp [EncodeAttributes, wStateF32, wAttF32, wOptions, getQuantBits,
      compressionLevelOf, floatPointsKdTreeEncoderEncodePointCloud]
  · simp [EncodeAttributes, wStateU32, wAttU32, wOptions, compressionLevelOf]

/-- Witness for C6: a 64-bit float attribute is rejected while the two
supported witness states encode successfully. -/
theorem c6_supported_data_types_witness :
    (EncodeAttributes wStateBadType).1 = false ∧
    (EncodeAttributes wStateF32).1 = true ∧
    (EncodeAttributes wStateU32).1 = true :=
  c6_supported_data_types wStateBadType wAttF64 [] rfl (by decide) (by decide)

/-- C7: when the derived compression level is outside [0, 10] on a supported
path, EncodeAttributes fails with a configuration error having emitted only
the already-written 6-byte header, and emits nothing further — no payload
byte is appended. -/
theorem c7_out_of_range_level (s : EncState) (att : PointAttribute)
    (ha : s.attributes = [att]) (hc : att.components_count = 3)
    (hdt : att.data_type = DataType.DT_FLOAT32 ∨ att.data_type = DataType.DT_UINT32)
    (hq : att.data_type = DataType.DT_FLOAT32 → 0 < getQuantBits s.options)
    (hl : 10 < compressionLevelOf s.options) :
    EncodeAttributes s = (false,
      (if att.data_type = DataType.DT_FLOAT32 then kKdTreeQuantizationEncoding
        else kKdTreeIntegerEncoding) :: compressionLevelOf s.options ::
        u32le s.cloud.num_points, s) := by
  rcases hdt with hdt | hdt
  · have hq2 := hq hdt
    simp [EncodeAttributes, ha, hc, hdt, Int.not_le.mpr hq2,
      floatPointsKdTreeEncoderEncodePointCloud, Nat.not_le.mpr hl]
  · simp [EncodeAttributes, ha, hc, hdt, Nat.not_le.mpr hl]

/-- Witness for C7: speed 11 derives the wrapped uint8 compression level 255,
which is rejected after the header bytes. -/
theorem c7_out_of_range_level_witness :
    EncodeAttributes wStateFastSpeed = (false,
      (if wAttU32.data_type = DataType.DT_FLOAT32 then kKdTreeQuantizationEncoding
        else kKdTreeIntegerEncoding) :: compressionLevelOf wStateFastSpeed.options ::
        u32le wStateFastSpeed.cloud.num_points, wStateFastSpeed) :=
  c7_out_of_range_level wStateFastSpeed wAttU32 rfl rfl (Or.inr rfl) (by decide)
    (by decide)

/-- C8: on the 32-bit unsigned integer path, EncodeAttributes hands the
recursive integer encoder a private working copy of the attribute values
(the int_points buffer built from the attribute iterator), and the encoder
state — in particular the original attribute storage — is unchanged by the
whole encode call. -/
theorem c8_working_copy_frame (s : EncState) (att : PointAttribute)
    (ha : s.attributes = [att]) (hc : att.components_count = 3)
    (hdt : att.data_type = DataType.DT_UINT32)
    (hl : compressionLevelOf s.options ≤ 10) :
    (EncodeAttributes s).2.2 = s ∧
    (EncodeAttributes s).2.1 =
      kKdTreeIntegerEncoding :: compressionLevelOf s.options ::
        (u32le s.cloud.num_points ++
          (integerPointsKdTreeEncoderEncodePoints (compressionLevelOf s.options)
            (attributePoints att s.cloud.num_points)).1) := by
  constructor <;> simp [EncodeAttributes, ha, hc, hdt, hl]

/-- Witness for C8: the integer witness state keeps its attribute storage and
feeds the codec the copied working buffer. -/
theorem c8_working_copy_frame_witness :
    (EncodeAttributes wStateU32).2.2 = wStateU32 ∧
    (EncodeAttributes wStateU32).2.1 =
      kKdTreeIntegerEncoding :: compressionLevelOf wStateU32.options ::
        (u32le wStateU32.cloud.num_points ++
          (integerPointsKdTreeEncoderEncodePoints (compressionLevelOf wStateU32.options)
            (attributePoints wAttU32 wStateU32.cloud.num_points)).1) :=
  c8_working_copy_frame wStateU32 wAttU32 rfl rfl rfl (by decide)

/-- C9: EncodeAttributes is deterministic — two runs over the same attached
attributes, the same options (hence the same compression level), and the same
point cloud produce identical results, in particular byte-identical output
buffers. -/
theorem c9_deterministic (s1 s2 : EncState)
    (hatt : s1.attributes = s2.attributes) (hopt : s1.options = s2.options)
    (hcloud : s1.cloud = s2.cloud) :
    EncodeAttributes s1 = EncodeAttributes s2 := by
  cases s1 with
  | mk a o c =>
    cases s2 with
    | mk a2 o2 c2 =>
      have h1 : a = a2 := hatt
      have h2 : o = o2 := hopt
      have h3 : c = c2 := hcloud
      subst h1
      subst h2
      subst h3
      rfl

/-- Witness for C9: two runs over the integer witness state coincide. -/
theorem c9_deterministic_witness :
    EncodeAttributes wStateU32 = EncodeAttributes wStateU32 :=
  c9_deterministic wStateU32 wStateU32 rfl rfl rfl

/-- C10: when EncodeAttributes fails a validation — wrong attribute count,
wrong component count, missing or non-positive quantization bits on the
float path, or an unsupported attribute data type — no bytes at all have
been appended to the output buffer. -/
theorem c10_no_output_before_validation (s : EncState)
    (h : s.attributes.length ≠ 1 ∨
      ∃ att, s.attributes = [att] ∧
        (att.components_count ≠ 3 ∨
          (att.data_type = DataType.DT_FLOAT32 ∧ getQuantBits s.options ≤ 0) ∨
          (att.data_type ≠ DataType.DT_FLOAT32 ∧
            att.data_type ≠ DataType.DT_UINT32))) :
    EncodeAttributes s = (false, [], s) := by
  rcases hs : s.attributes with _ | ⟨att, _ | ⟨b, l⟩⟩
  · simp [EncodeAttributes, hs]
  · rcases h with h | ⟨att2, he, hcase⟩
    · rw [hs] at h
      simp at h
    · rw [hs] at he
      injection he with h1 h2
      subst h1
      rcases hcase with hcc | ⟨hdt, hq⟩ | ⟨hf, hu⟩
      · simp [EncodeAttributes, hs, hcc]
      · by_cases hcomp : att.components_count = 3
        · simp [EncodeAttributes, hs, hcomp, hdt, hq]
        · simp [EncodeAttributes, hs, hcomp]
      · by_cases hcomp : att.components_count = 3
        · simp [EncodeAttributes, hs, hcomp, hf, hu]
        · simp [EncodeAttributes, hs, hcomp]
  · simp [EncodeAttributes, hs]

/-- Witness for C10: the unsupported 64-bit float attribute fails with an
empty output buffer. -/
theorem c10_no_output_before_validation_witness :
    EncodeAttributes wStateBadType = (false, [], wStateBadType) :=
  c10_no_output_before_validation wStateBadType
    (Or.inr ⟨wAttF64, rfl, Or.inr (Or.inr ⟨by decide, by decide⟩)⟩)

end Draco
